/-
Verification of the datastats dashboard aggregation layer.

The two scripts (dash.py and dashboard.py) read four relational tables,
filter the usage rows to the target application with a MySQL LIKE
pattern, join usage rows to computers and locations (and, for the
per-player view, to agents), group with SUM(total_sent + total_received),
sort, and convert bytes to megabytes rounded to two decimals.

The embedding below models each SQL query as a list pipeline:
filter, join (flatMap over matching foreign keys), group-by on the
distinct keys in first-occurrence order, and an insertion sort for the
ORDER BY clause.  MySQL string comparison under the default collation is
case-insensitive, so LIKE percent-patterns become a case-insensitive
substring test.  The pandas round(2) conversion is round-half-to-even;
it is modelled exactly on rationals, with the integer core kept in
hundredths of a megabyte so that concrete runs reduce in the kernel.
-/
import Mathlib

/-- One row of glpi_network_stats: a daily usage record of one computer
and one application. -/
structure NetworkStat where
  date_log : Nat
  computers_id : Nat
  app_name : String
  total_sent : Nat
  total_received : Nat
deriving DecidableEq

/-- One row of glpi_computers. -/
structure Computer where
  id : Nat
  locations_id : Nat
deriving DecidableEq

/-- One row of glpi_locations. -/
structure Location where
  id : Nat
  name : String
deriving DecidableEq

/-- One row of glpi_agents. -/
structure Agent where
  items_id : Nat
  itemtype : String
  tag : String
deriving DecidableEq

/-- The four tables read by the dashboard queries. -/
structure Db where
  network_stats : List NetworkStat
  computers : List Computer
  locations : List Location
  agents : List Agent
deriving DecidableEq

/-- Substring test on character lists. -/
def isSubstr (pat : List Char) : List Char → Bool
  | [] => pat.isEmpty
  | c :: rest => pat.isPrefixOf (c :: rest) || isSubstr pat rest

/-- Case folding for the default case-insensitive MySQL collation. -/
def lowerChars (s : String) : List Char :=
  s.toList.map Char.toLower

/-- MySQL LIKE with percent wildcards on both sides, under the default
case-insensitive collation: an unanchored, case-insensitive substring
match. -/
def likeContains (pat s : String) : Bool :=
  isSubstr (lowerChars pat) (lowerChars s)

/-- The application filter used by every query:
app_name LIKE the bsp.exe percent-pattern. -/
def appMatch (r : NetworkStat) : Bool :=
  likeContains "bsp.exe" r.app_name

/-- Ascending order on a numeric key. -/
def leOn {α : Type} (f : α → Nat) : α → α → Prop := fun a b => f a ≤ f b

/-- Descending order on a numeric key. -/
def geOn {α : Type} (f : α → Nat) : α → α → Prop := fun a b => f b ≤ f a

instance {α : Type} (f : α → Nat) : DecidableRel (leOn f) :=
  fun a b => Nat.decLe (f a) (f b)

instance {α : Type} (f : α → Nat) : DecidableRel (geOn f) :=
  fun a b => Nat.decLe (f b) (f a)

instance {α : Type} (f : α → Nat) : IsTotal α (leOn f) :=
  ⟨fun a b => Nat.le_total (f a) (f b)⟩

instance {α : Type} (f : α → Nat) : IsTotal α (geOn f) :=
  ⟨fun a b => Nat.le_total (f b) (f a)⟩

instance {α : Type} (f : α → Nat) : IsTrans α (leOn f) :=
  ⟨fun _ _ _ h1 h2 => Nat.le_trans h1 h2⟩

instance {α : Type} (f : α → Nat) : IsTrans α (geOn f) :=
  ⟨fun _ _ _ h1 h2 => Nat.le_trans h2 h1⟩

/-- Accumulate a key if it has not been seen yet. -/
def insKey {κ : Type} [DecidableEq κ] (acc : List κ) (k : κ) : List κ :=
  if k ∈ acc then acc else acc ++ [k]

/-- The distinct elements of a list, in first-occurrence order. -/
def firstOccs {κ : Type} [DecidableEq κ] (l : List κ) : List κ :=
  l.foldl insKey []

/-- SUM of a measure over the rows of one group. -/
def sqlSumFor {α κ : Type} [DecidableEq κ] (key : α → κ) (val : α → Nat)
    (rows : List α) (k : κ) : Nat :=
  ((rows.filter (fun r => key r = k)).map val).sum

/-- GROUP BY key with SUM(val): one output row per distinct key occurring
in the input, paired with the sum of the measure over its group. -/
def sqlGroupBy {α κ : Type} [DecidableEq κ] (key : α → κ) (val : α → Nat)
    (rows : List α) : List (κ × Nat) :=
  (firstOccs (rows.map key)).map (fun k => (k, sqlSumFor key val rows k))

/-- total_sent + total_received, the measure summed by every query. -/
def bytesOf (r : NetworkStat) : Nat := r.total_sent + r.total_received

/-- The usage rows matching the application filter. -/
def appRows (db : Db) : List NetworkStat :=
  db.network_stats.filter appMatch

/-- The location names a usage row joins to through
computers.id = computers_id and locations.id = locations_id;
one entry per matching (computer, location) pair, as an inner join. -/
def siteNamesFor (db : Db) (r : NetworkStat) : List String :=
  (db.computers.filter (fun c => c.id = r.computers_id)).flatMap
    (fun c => (db.locations.filter (fun l => l.id = c.locations_id)).map
      (fun l => l.name))

/-- The rows of the three-table join restricted to the application
filter: each matching usage row paired with each location it joins to. -/
def joinedRows (db : Db) : List (NetworkStat × String) :=
  (appRows db).flatMap (fun r => (siteNamesFor db r).map (fun nm => (r, nm)))

/-- dash.py get_global_stats_by_location, the SQL part: join, filter,
GROUP BY location name, SUM bytes, ORDER BY total_bytes DESC. -/
def get_global_stats_by_location (db : Db) : List (String × Nat) :=
  List.insertionSort (geOn (fun p => p.2))
    (sqlGroupBy (fun p : NetworkStat × String => p.2) (fun p => bytesOf p.1)
      (joinedRows db))

/-- dash.py get_global_timeline, the SQL part: no join, filter,
GROUP BY date_log, SUM bytes, ORDER BY date_log ASC. -/
def get_global_timeline (db : Db) : List (Nat × Nat) :=
  List.insertionSort (leOn (fun p => p.1))
    (sqlGroupBy (fun r => r.date_log) bytesOf (appRows db))

/-- dashboard.py get_global_data, first query: join, filter,
GROUP BY (date_log, location name), SUM bytes, ORDER BY date_log ASC. -/
def query_timeline (db : Db) : List ((Nat × String) × Nat) :=
  List.insertionSort (leOn (fun p => p.1.1))
    (sqlGroupBy (fun p : NetworkStat × String => (p.1.date_log, p.2))
      (fun p => bytesOf p.1) (joinedRows db))

/-- dashboard.py get_global_data, second query: join, filter,
GROUP BY location name, SUM bytes, ORDER BY total_bytes DESC. -/
def query_ranking (db : Db) : List (String × Nat) :=
  List.insertionSort (geOn (fun p => p.2))
    (sqlGroupBy (fun p : NetworkStat × String => p.2) (fun p => bytesOf p.1)
      (joinedRows db))

/-- The (location name, agent tag) pairs a usage row joins to through
computers, locations and agents with itemtype Computer. -/
def playerPairsFor (db : Db) (r : NetworkStat) : List (String × String) :=
  (db.computers.filter (fun c => c.id = r.computers_id)).flatMap (fun c =>
    (db.locations.filter (fun l => l.id = c.locations_id)).flatMap (fun l =>
      (db.agents.filter (fun a => a.items_id = c.id ∧ a.itemtype = "Computer")).map
        (fun a => (l.name, a.tag))))

/-- The rows of the four-table join restricted to the application
filter. -/
def taggedRows (db : Db) : List (NetworkStat × String × String) :=
  (appRows db).flatMap (fun r => (playerPairsFor db r).map (fun pr => (r, pr)))

/-- dashboard.py get_player_data, the SQL part: four-table join, the
application filter AND tag LIKE the percent-wrapped player_tag,
GROUP BY (date_log, location name, tag), SUM bytes, ORDER BY date ASC. -/
def get_player_data (db : Db) (player_tag : String) :
    List ((Nat × String × String) × Nat) :=
  List.insertionSort (leOn (fun p => p.1.1))
    (sqlGroupBy (fun p : NetworkStat × String × String =>
        (p.1.date_log, p.2.1, p.2.2))
      (fun p => bytesOf p.1)
      ((taggedRows db).filter (fun p => likeContains player_tag p.2.2)))

/-- The same aggregation as get_player_data but with the tag condition
removed from the WHERE clause: the aggregate over every
application-filtered usage row that joins to some tagged asset. -/
def player_agg_all (db : Db) : List ((Nat × String × String) × Nat) :=
  List.insertionSort (leOn (fun p => p.1.1))
    (sqlGroupBy (fun p : NetworkStat × String × String =>
        (p.1.date_log, p.2.1, p.2.2))
      (fun p => bytesOf p.1) (taggedRows db))

/-- Round-half-to-even Nat division: the quotient of r by d rounded to
the nearest integer, ties to the even quotient. -/
def divRoundHalfEven (r d : Nat) : Nat :=
  if 2 * (r % d) < d then r / d
  else if d < 2 * (r % d) then r / d + 1
  else if (r / d) % 2 = 0 then r / d else r / d + 1

/-- The total_mb conversion of the scripts, kept in hundredths of a
megabyte: (bytes / (1024*1024)).round(2) scaled by 100.  pandas round
is round-half-to-even. -/
def mbCenti (bytes : Nat) : Nat :=
  divRoundHalfEven (100 * bytes) (1024 * 1024)

/-- The total_mb value handed to the charts, as an exact rational. -/
def total_mb (bytes : Nat) : ℚ :=
  (mbCenti bytes : ℚ) / 100

/-- Round-half-to-even on rationals, used to state the spec-side
conversion: the integer nearest to x, ties to the even integer. -/
def roundHalfEvenQ (x : ℚ) : ℤ :=
  if 2 * Int.fract x < 1 then ⌊x⌋
  else if 1 < 2 * Int.fract x then ⌊x⌋ + 1
  else if ⌊x⌋ % 2 = 0 then ⌊x⌋ else ⌊x⌋ + 1

/-- Modelled from the spec words: toMegabytes(bytes) equals
round(bytes / 1_048_576, 2), a two-decimal round-half-to-even of the
exact quotient.  Stated independently of the source pipeline so that
the two definitions can be compared. -/
def toMegabytes (bytes : Nat) : ℚ :=
  (roundHalfEvenQ (100 * ((bytes : ℚ) / 1048576)) : ℚ) / 100

/-- dash.py get_global_stats_by_location with its connection check and
try/except: a missing connection or a raising read_sql both yield an
empty frame, otherwise the query result is returned.  Whether read_sql
raises is an input of the model. -/
def get_global_stats_run (conn : Option Db) (sqlFails : Bool) :
    List (String × Nat) :=
  match conn with
  | none => []
  | some db => if sqlFails then [] else get_global_stats_by_location db

/-- dashboard.py get_global_data, connection check and try/except
included: a missing connection returns two empty frames; if either of
the two read_sql calls raises, the except branch returns two empty
frames; otherwise both query results are returned. -/
def get_global_data (conn : Option Db) (timelineFails rankingFails : Bool) :
    List ((Nat × String) × Nat) × List (String × Nat) :=
  match conn with
  | none => ([], [])
  | some db =>
    if timelineFails || rankingFails then ([], [])
    else (query_timeline db, query_ranking db)

/-- The shape of the pair returned by get_global_data. -/
abbrev GlobalTables := List ((Nat × String) × Nat) × List (String × Nat)

/-- A memo cell plus a counter of data-base query rounds issued so far. -/
structure CacheState (α : Type) where
  entry : Option (Nat × α)
  queryRounds : Nat
deriving DecidableEq

/-- Modelled from the spec: the st.cache_data decorator applied to
get_global_data in dashboard.py belongs to an external library, so its
getOrCompute contract is taken from the spec (section 4.4): on a hit
whose age is within the ttl the stored value is returned and no query
is issued; on a miss or an expired entry the compute function runs,
one query round is counted, and the fresh value is stored. -/
def getOrCompute {α : Type} (compute : Unit → α) (ttl now : Nat)
    (s : CacheState α) : α × CacheState α :=
  match s.entry with
  | some (t, v) =>
    if now < t + ttl then (v, s)
    else
      let v2 := compute ()
      (v2, ⟨some (now, v2), s.queryRounds + 1⟩)
  | none =>
    let v2 := compute ()
    (v2, ⟨some (now, v2), s.queryRounds + 1⟩)

/-- The cache state before the first render: no entry, no queries. -/
def emptyCache : CacheState GlobalTables := ⟨none, 0⟩

/-- dashboard.py get_global_data as decorated: memoized with ttl 300
seconds, counting underlying query rounds. -/
def get_global_data_cached (db : Db) (now : Nat) (s : CacheState GlobalTables) :
    GlobalTables × CacheState GlobalTables :=
  getOrCompute (fun _ => get_global_data (some db) false false) 300 now s

/-- dashboard.py get_player_data as invoked from the sidebar: it carries
no cache decorator, so every call with an open connection issues its
query unconditionally, whatever the cache state holds. -/
def get_player_data_tracked (db : Db) (player_tag : String)
    (s : CacheState GlobalTables) :
    List ((Nat × String × String) × Nat) × CacheState GlobalTables :=
  (get_player_data db player_tag, ⟨s.entry, s.queryRounds + 1⟩)

/-- pandas iloc[0]: the first row, or an indexer error on an empty
frame. -/
def iloc0 {α : Type} (l : List α) : Except String α :=
  match l with
  | [] => Except.error "single positional indexer is out-of-bounds"
  | x :: _ => Except.ok x

/-- The KPI header values computed by dashboard.py. -/
structure Kpis where
  total_consumed : ℚ
  top_loc_name : String
  top_loc_val : ℚ
  nb_locations : Nat
  last_date : Nat
deriving DecidableEq

/-- pandas nunique: the number of distinct values. -/
def nunique {α : Type} [DecidableEq α] (l : List α) : Nat :=
  (firstOccs l).length

/-- The main display of dashboard.py: if both frames are non-empty the
KPIs are computed, the top location being ranking iloc[0]; otherwise
the explicit no-data notice (modelled as none) is shown and no row is
accessed. -/
def renderMain (df_timeline : List ((Nat × String) × Nat))
    (df_ranking : List (String × Nat)) : Except String (Option Kpis) :=
  if !df_timeline.isEmpty && !df_ranking.isEmpty then
    match iloc0 df_ranking with
    | Except.error e => Except.error e
    | Except.ok top =>
      Except.ok (some ⟨(df_ranking.map (fun p => total_mb p.2)).sum,
        top.1, total_mb top.2,
        nunique (df_ranking.map (fun p => p.1)),
        (df_timeline.map (fun p => p.1.1)).foldl max 0⟩)
  else Except.ok none

/-- The sum, over the per-site timeline rows of a given date, of their
rounded total_mb values. -/
def perSiteMBsum (db : Db) (d : Nat) : ℚ :=
  (((query_timeline db).filter (fun row => row.1.1 = d)).map
    (fun row => total_mb row.2)).sum

/-- The rounded total_mb of the global timeline at a given date (zero
when the date has no row). -/
def globalMBsum (db : Db) (d : Nat) : ℚ :=
  (((get_global_timeline db).filter (fun row => row.1 = d)).map
    (fun row => total_mb row.2)).sum

/-- The sum, over the per-site timeline rows of a given date, of their
raw byte totals. -/
def perSiteBytes (db : Db) (d : Nat) : Nat :=
  (((query_timeline db).filter (fun row => row.1.1 = d)).map
    (fun row => row.2)).sum

/-- The raw byte total of the global timeline at a given date (zero when
the date has no row). -/
def globalBytes (db : Db) (d : Nat) : Nat :=
  (((get_global_timeline db).filter (fun row => row.1 = d)).map
    (fun row => row.2)).sum

/-- Two same-day records of 5242 bytes at two sites: each site rounds to
0.00 MB while the day total of 10484 bytes rounds to 0.01 MB. -/
def cexDb : Db :=
  ⟨[⟨1, 1, "bsp.exe", 5242, 0⟩, ⟨1, 2, "bsp.exe", 5242, 0⟩],
   [⟨1, 1⟩, ⟨2, 2⟩],
   [⟨1, "siteA"⟩, ⟨2, "siteB"⟩],
   []⟩

/-- The scenario of the spec: one day, 1 MiB sent at siteA and 2 MiB
sent at siteB, nothing received. -/
def scenarioDb : Db :=
  ⟨[⟨1, 1, "bsp.exe", 1048576, 0⟩, ⟨1, 2, "bsp.exe", 2097152, 0⟩],
   [⟨1, 1⟩, ⟨2, 2⟩],
   [⟨1, "siteA"⟩, ⟨2, "siteB"⟩],
   []⟩

/-- A data base with four empty tables. -/
def emptyDb : Db := ⟨[], [], [], []⟩

/-! Basic facts about the LIKE model. -/

/-- The empty pattern is a substring of every character list. -/
theorem isSubstr_nil_left (s : List Char) : isSubstr [] s = true := by
  cases s <;> simp [isSubstr, List.isPrefixOf]

/-- The empty pattern matches every string: LIKE with two percent signs
and nothing between them accepts every value. -/
theorem likeContains_empty (s : String) : likeContains "" s = true := by
  simp [likeContains, lowerChars]
  exact isSubstr_nil_left _

/-! Facts about firstOccs, the distinct grouping keys. -/

theorem mem_foldl_insKey {κ : Type} [DecidableEq κ] (l : List κ) :
    ∀ (acc : List κ) (x : κ), x ∈ l.foldl insKey acc ↔ x ∈ acc ∨ x ∈ l := by
  induction l with
  | nil => intro acc x; simp
  | cons a t ih =>
    intro acc x
    rw [List.foldl_cons, ih]
    unfold insKey
    by_cases h : a ∈ acc
    · simp only [if_pos h, List.mem_cons]
      constructor
      · rintro (hx | hx)
        · exact Or.inl hx
        · exact Or.inr (Or.inr hx)
      · rintro (hx | hx | hx)
        · exact Or.inl hx
        · exact Or.inl (hx ▸ h)
        · exact Or.inr hx
    · simp only [if_neg h, List.mem_append, List.mem_singleton, List.mem_cons]
      tauto

theorem nodup_foldl_insKey {κ : Type} [DecidableEq κ] (l : List κ) :
    ∀ acc : List κ, acc.Nodup → (l.foldl insKey acc).Nodup := by
  induction l with
  | nil => intro acc h; exact h
  | cons a t ih =>
    intro acc h
    rw [List.foldl_cons]
    apply ih
    unfold insKey
    by_cases ha : a ∈ acc
    · rwa [if_pos ha]
    · rw [if_neg ha, ← List.concat_eq_append]
      exact h.concat ha

theorem mem_firstOccs {κ : Type} [DecidableEq κ] {l : List κ} {x : κ} :
    x ∈ firstOccs l ↔ x ∈ l := by
  unfold firstOccs
  rw [mem_foldl_insKey]
  simp

theorem nodup_firstOccs {κ : Type} [DecidableEq κ] (l : List κ) :
    (firstOccs l).Nodup :=
  nodup_foldl_insKey l [] List.nodup_nil

theorem firstOccs_eq_nil {κ : Type} [DecidableEq κ] {l : List κ} :
    firstOccs l = [] ↔ l = [] := by
  constructor
  · intro h
    cases l with
    | nil => rfl
    | cons a t =>
      exfalso
      have : a ∈ firstOccs (a :: t) := mem_firstOccs.mpr (List.mem_cons_self a t)
      rw [h] at this
      exact List.not_mem_nil a this
  · intro h; rw [h]; rfl

/-! Sum bookkeeping for GROUP BY. -/

/-- Splitting a mapped sum along a filter and its complement. -/
theorem sum_map_filter_split {α : Type} (p : α → Bool) (f : α → Nat)
    (l : List α) :
    ((l.filter p).map f).sum + ((l.filter (fun a => !(p a))).map f).sum
      = (l.map f).sum := by
  induction l with
  | nil => rfl
  | cons a t ih =>
    by_cases h : p a <;>
      simp only [List.filter_cons, h, Bool.not_true, Bool.not_false,
        if_pos, if_neg, List.map_cons, List.sum_cons, Bool.false_eq_true,
        Bool.true_eq_false, ite_true, ite_false] <;> omega

/-- A mapped sum turned into a sum of guarded terms. -/
theorem sum_map_filter_eq_sum_ite {α : Type} (p : α → Bool) (f : α → Nat)
    (l : List α) :
    ((l.filter p).map f).sum = (l.map (fun a => if p a then f a else 0)).sum := by
  induction l with
  | nil => rfl
  | cons a t ih =>
    by_cases h : p a <;>
      simp [List.filter_cons, h, ih]

/-- Summing the per-group sums over a duplicate-free key list that
covers every row gives the total sum. -/
theorem sum_sqlSumFor_over_keys {α κ : Type} [DecidableEq κ]
    (key : α → κ) (val : α → Nat) :
    ∀ (keys : List κ) (rows : List α), keys.Nodup →
      (∀ r ∈ rows, key r ∈ keys) →
      (keys.map (sqlSumFor key val rows)).sum = (rows.map val).sum := by
  intro keys
  induction keys with
  | nil =>
    intro rows _ hcov
    have : rows = [] := by
      cases rows with
      | nil => rfl
      | cons r t => exact absurd (hcov r (List.mem_cons_self r t)) (List.not_mem_nil _)
    rw [this]; rfl
  | cons k ks ih =>
    intro rows hnd hcov
    have hk : k ∉ ks := (List.nodup_cons.mp hnd).1
    have hnd' : ks.Nodup := (List.nodup_cons.mp hnd).2
    rw [List.map_cons, List.sum_cons]
    have hsplit := sum_map_filter_split (fun r => key r = k) val rows
    have hrest :
        (ks.map (sqlSumFor key val rows)).sum
          = (ks.map (sqlSumFor key val (rows.filter (fun r => !(decide (key r = k)))))).sum := by
      apply congrArg
      apply List.map_congr_left
      intro k2 hk2
      unfold sqlSumFor
      rw [List.filter_filter]
      apply congrArg
      apply congrArg
      apply List.filter_congr
      intro r _
      by_cases h : key r = k2
      · have hne : ¬ key r = k := by
          intro hc
          exact hk ((h.symm.trans hc) ▸ hk2)
        have hkk : ¬ k2 = k := fun hc => hk (hc ▸ hk2)
        simp [h, hne, hkk]
      · simp [h]
    rw [hrest, ih (rows.filter (fun r => !(decide (key r = k)))) hnd']
    · rw [← hsplit]
      rfl
    · intro r hr
      rcases List.mem_filter.mp hr with ⟨hrow, hne⟩
      have := hcov r hrow
      rcases List.mem_cons.mp this with h | h
      · exfalso
        simp [h] at hne
      · exact h

/-- Restricting one group to rows selected by a predicate on the key
changes nothing when the key satisfies the predicate. -/
theorem sqlSumFor_filter_key {α κ : Type} [DecidableEq κ]
    (key : α → κ) (val : α → Nat) (rows : List α) (q : κ → Bool) (k : κ)
    (hq : q k = true) :
    sqlSumFor key val rows k
      = sqlSumFor key val (rows.filter (fun r => q (key r))) k := by
  unfold sqlSumFor
  rw [List.filter_filter]
  apply congrArg
  apply congrArg
  apply List.filter_congr
  intro r _
  by_cases h : key r = k
  · simp [h, hq]
  · simp [h]

/-- The rows of a GROUP BY whose key satisfies a predicate sum to the
sum of the measure over the input rows whose key satisfies it. -/
theorem sqlGroupBy_filter_sum {α κ : Type} [DecidableEq κ]
    (key : α → κ) (val : α → Nat) (rows : List α) (q : κ → Bool) :
    (((sqlGroupBy key val rows).filter (fun g => q g.1)).map
        (fun g => g.2)).sum
      = ((rows.filter (fun r => q (key r))).map val).sum := by
  unfold sqlGroupBy
  rw [List.filter_map, List.map_map]
  have hcomp :
      ((fun g : κ × Nat => q g.1) ∘ fun k => (k, sqlSumFor key val rows k))
        = fun k => q k := rfl
  rw [hcomp]
  have hmap :
      ((fun g : κ × Nat => g.2) ∘ fun k => (k, sqlSumFor key val rows k))
        = sqlSumFor key val rows := rfl
  rw [hmap]
  have hcong :
      (((firstOccs (rows.map key)).filter (fun k => q k)).map
          (sqlSumFor key val rows)).sum
        = (((firstOccs (rows.map key)).filter (fun k => q k)).map
            (sqlSumFor key val (rows.filter (fun r => q (key r))))).sum := by
    apply congrArg
    apply List.map_congr_left
    intro k hkmem
    exact sqlSumFor_filter_key key val rows q k (List.mem_filter.mp hkmem).2
  rw [hcong]
  apply sum_sqlSumFor_over_keys
  · exact (nodup_firstOccs _).filter _
  · intro r hr
    rcases List.mem_filter.mp hr with ⟨hrow, hqr⟩
    apply List.mem_filter.mpr
    constructor
    · exact mem_firstOccs.mpr (List.mem_map.mpr ⟨r, hrow, rfl⟩)
    · exact hqr

/-- Membership in a GROUP BY result: exactly the keys occurring in the
input, each paired with its group sum. -/
theorem mem_sqlGroupBy {α κ : Type} [DecidableEq κ]
    (key : α → κ) (val : α → Nat) (rows : List α) (k : κ) (t : Nat) :
    (k, t) ∈ sqlGroupBy key val rows
      ↔ (∃ r ∈ rows, key r = k) ∧ t = sqlSumFor key val rows k := by
  unfold sqlGroupBy
  rw [List.mem_map]
  constructor
  · rintro ⟨k2, hk2, heq⟩
    have hk : k2 = k := congrArg Prod.fst heq
    subst hk
    have ht : t = sqlSumFor key val rows k2 := (congrArg Prod.snd heq).symm
    refine ⟨?_, ht⟩
    have : k2 ∈ rows.map key := mem_firstOccs.mp hk2
    rcases List.mem_map.mp this with ⟨r, hr, hkey⟩
    exact ⟨r, hr, hkey⟩
  · rintro ⟨⟨r, hr, hkey⟩, ht⟩
    refine ⟨k, ?_, by rw [← ht]⟩
    exact mem_firstOccs.mpr (List.mem_map.mpr ⟨r, hr, hkey⟩)

/-- A GROUP BY result is empty exactly when its input is. -/
theorem sqlGroupBy_eq_nil {α κ : Type} [DecidableEq κ]
    (key : α → κ) (val : α → Nat) (rows : List α) :
    sqlGroupBy key val rows = [] ↔ rows = [] := by
  unfold sqlGroupBy
  rw [List.map_eq_nil_iff, firstOccs_eq_nil, List.map_eq_nil_iff]

/-- An insertion sort is empty exactly when its input is. -/
theorem insertionSort_eq_nil {α : Type} (r : α → α → Prop) [DecidableRel r]
    (l : List α) : List.insertionSort r l = [] ↔ l = [] := by
  constructor
  · intro h
    have hp := List.perm_insertionSort r l
    rw [h] at hp
    exact (hp.symm).eq_nil
  · intro h
    rw [h]
    rfl

/-- Sorting does not change a filtered mapped sum. -/
theorem insertionSort_filter_map_sum {α : Type} (r : α → α → Prop)
    [DecidableRel r] (l : List α) (p : α → Bool) (f : α → Nat) :
    (((List.insertionSort r l).filter p).map f).sum
      = ((l.filter p).map f).sum := by
  have hp : ((List.insertionSort r l).filter p).Perm (l.filter p) :=
    (List.perm_insertionSort r l).filter p
  exact (hp.map f).sum_eq

/-- Sum of a measure over a flatMap, block by block. -/
theorem sum_map_flatMap {α β : Type} (l : List α) (g : α → List β)
    (f : β → Nat) :
    ((l.flatMap g).map f).sum = (l.map (fun a => ((g a).map f).sum)).sum := by
  induction l with
  | nil => rfl
  | cons a t ih =>
    rw [List.flatMap_cons, List.map_append, List.sum_append, ih,
      List.map_cons, List.sum_cons]

/-- When every application-matching record joins to exactly one
(computer, location) pair, the joined rows of one date carry the same
byte total as the plain filtered records of that date. -/
theorem joined_filter_sum (db : Db) (d : Nat)
    (H : ∀ r ∈ appRows db, (siteNamesFor db r).length = 1) :
    (((joinedRows db).filter (fun p => p.1.date_log = d)).map
        (fun p => bytesOf p.1)).sum
      = (((appRows db).filter (fun r => r.date_log = d)).map bytesOf).sum := by
  unfold joinedRows
  rw [List.filter_flatMap, sum_map_flatMap,
    sum_map_filter_eq_sum_ite (fun r => r.date_log = d) bytesOf (appRows db)]
  apply congrArg
  apply List.map_congr_left
  intro r hr
  rw [List.filter_map, List.map_map]
  by_cases hd : r.date_log = d
  · have hfilter :
        ((fun p : NetworkStat × String => decide (p.1.date_log = d))
            ∘ fun nm => (r, nm)) = fun _ => true := by
      funext nm
      simp [hd]
    rw [hfilter, List.filter_true]
    have hconst :
        ((fun p : NetworkStat × String => bytesOf p.1) ∘ fun nm => (r, nm))
          = fun _ => bytesOf r := rfl
    rw [hconst, List.map_const', List.sum_replicate, H r hr]
    simp [hd]
  · have hfilter :
        ((fun p : NetworkStat × String => decide (p.1.date_log = d))
            ∘ fun nm => (r, nm)) = fun _ => false := by
      funext nm
      simp [hd]
    rw [hfilter, List.filter_false]
    simp [hd]

/-- The rounded quotient lies between the floor quotient and its
successor. -/
theorem divRoundHalfEven_bounds (r d : Nat) :
    r / d ≤ divRoundHalfEven r d ∧ divRoundHalfEven r d ≤ r / d + 1 := by
  unfold divRoundHalfEven
  split_ifs <;> omega

/-- Round-half-to-even division is monotone in the dividend. -/
theorem divRoundHalfEven_mono (d : Nat) {r1 r2 : Nat} (h : r1 ≤ r2) :
    divRoundHalfEven r1 d ≤ divRoundHalfEven r2 d := by
  have hdiv : r1 / d ≤ r2 / d := Nat.div_le_div_right h
  rcases Nat.lt_or_ge (r1 / d) (r2 / d) with hq | hq
  · have b1 := divRoundHalfEven_bounds r1 d
    have b2 := divRoundHalfEven_bounds r2 d
    omega
  · have hqe : r1 / d = r2 / d := Nat.le_antisymm hdiv hq
    have e1 := Nat.mod_add_div r1 d
    have e2 := Nat.mod_add_div r2 d
    unfold divRoundHalfEven
    rw [hqe] at e1 ⊢
    have hm : r1 % d ≤ r2 % d := by
      generalize d * (r2 / d) = m at e1 e2
      omega
    split_ifs <;> omega

/-- The integer round-half-to-even of the exact rational quotient agrees
with the Nat-level round-half-to-even division. -/
theorem divRoundHalfEven_eq_roundQ (r d : Nat) (hd : 0 < d) :
    (divRoundHalfEven r d : ℤ) = roundHalfEvenQ ((r : ℚ) / (d : ℚ)) := by
  have hd0 : (0 : ℚ) < (d : ℚ) := by exact_mod_cast hd
  have hfl : ⌊(r : ℚ) / (d : ℚ)⌋ = ((r / d : Nat) : ℤ) := by
    have h1 : (((r : ℤ) : ℚ) / ((d : Nat) : ℚ)) = ((r : ℚ) / (d : ℚ)) := by
      push_cast
      ring
    rw [← h1, Rat.floor_intCast_div_natCast, Int.natCast_div]
  have hfr : Int.fract ((r : ℚ) / (d : ℚ)) = ((r % d : Nat) : ℚ) / (d : ℚ) :=
    Int.fract_div_natCast_eq_div_natCast_mod
  have hA : (2 * Int.fract ((r : ℚ) / (d : ℚ)) < 1) ↔ (2 * (r % d) < d) := by
    rw [hfr, ← mul_div_assoc, div_lt_one hd0]
    norm_cast
  have hB : (1 < 2 * Int.fract ((r : ℚ) / (d : ℚ))) ↔ (d < 2 * (r % d)) := by
    rw [hfr, ← mul_div_assoc, one_lt_div hd0]
    norm_cast
  have hp : ((((r / d : Nat) : ℤ)) % 2 = 0) ↔ ((r / d) % 2 = 0) := by
    omega
  unfold divRoundHalfEven roundHalfEvenQ
  simp only [hfl, hA, hB, hp]
  split_ifs <;> push_cast <;> ring

/-- Claim C2: siteRanking groups the application-filtered usage records
(case-insensitive substring match on app_name, embodied in appMatch) by
location name, sums bytes_sent + bytes_received per site, and returns
the rows ordered by that total in descending order: the result is
sorted nonincreasingly by total, and its rows are exactly the occurring
site names paired with their group byte sums. -/
theorem site_ranking_spec (db : Db) :
    List.Sorted (geOn (fun p : String × Nat => p.2))
      (get_global_stats_by_location db) ∧
    (∀ s t, (s, t) ∈ get_global_stats_by_location db ↔
      ((∃ p ∈ joinedRows db, p.2 = s) ∧
        t = (((joinedRows db).filter (fun p => p.2 = s)).map
          (fun p => bytesOf p.1)).sum)) := by
  constructor
  · exact List.sorted_insertionSort _ _
  · intro s t
    unfold get_global_stats_by_location
    rw [List.mem_insertionSort, mem_sqlGroupBy]
    exact Iff.rfl

/-- Claim C3: on the two-record scenario (day 1, siteA 1048576 bytes
sent, siteB 2097152 bytes sent, nothing received, both matching the
application filter), the site ranking displays exactly siteB with 2.0 MB
before siteA with 1.0 MB, and the global timeline displays exactly day 1
with 3.0 MB. -/
theorem scenario_ranking_and_timeline :
    (get_global_stats_by_location scenarioDb).map
        (fun p => (p.1, total_mb p.2)) = [("siteB", 2), ("siteA", 1)] ∧
    (get_global_timeline scenarioDb).map
        (fun p => (p.1, total_mb p.2)) = [(1, 3)] := by
  have h1 : get_global_stats_by_location scenarioDb
      = [("siteB", 2097152), ("siteA", 1048576)] := by decide
  have h2 : get_global_timeline scenarioDb = [(1, 3145728)] := by decide
  rw [h1, h2]
  simp only [List.map_cons, List.map_nil, total_mb,
    show mbCenti 2097152 = 200 from by decide,
    show mbCenti 1048576 = 100 from by decide,
    show mbCenti 3145728 = 300 from by decide]
  norm_num

/-- Claim C7: the total_mb conversion of the scripts equals the spec
formula round(bytes divided by 1048576, two decimals) with
round-half-to-even, and it is monotone in the byte count. -/
theorem total_mb_matches_spec_and_mono :
    (∀ bytes : Nat, total_mb bytes = toMegabytes bytes) ∧
    (∀ b1 b2 : Nat, b1 < b2 → total_mb b1 ≤ total_mb b2) := by
  constructor
  · intro b
    unfold total_mb toMegabytes mbCenti
    have h := divRoundHalfEven_eq_roundQ (100 * b) (1024 * 1024) (by norm_num)
    have harg : (100 * ((b : ℚ) / 1048576))
        = (((100 * b : Nat) : ℚ) / ((1024 * 1024 : Nat) : ℚ)) := by
      push_cast
      ring
    rw [harg, ← h]
    push_cast
    ring
  · intro b1 b2 hlt
    unfold total_mb
    have h1 : mbCenti b1 ≤ mbCenti b2 := by
      unfold mbCenti
      exact divRoundHalfEven_mono _ (by omega)
    have h2 : ((mbCenti b1 : ℚ)) ≤ (mbCenti b2 : ℚ) := by exact_mod_cast h1
    have h100 : (0 : ℚ) < 100 := by norm_num
    exact (div_le_div_iff_of_pos_right h100).mpr h2

/-- Witness for C7 at bytes 1 and 2. -/
theorem total_mb_matches_spec_and_mono_witness :
    total_mb 1048576 = toMegabytes 1048576 ∧
    (1 : Nat) < 2 ∧ total_mb 1 ≤ total_mb 2 :=
  ⟨total_mb_matches_spec_and_mono.1 1048576, by norm_num,
    total_mb_matches_spec_and_mono.2 1 2 (by norm_num)⟩

/-- Claim C8: the empty tag substring passes the LIKE filter for every
tag value, so get_player_data with the empty string returns exactly the
aggregate over all application-filtered usage rows that join to any
tagged asset. -/
theorem bytag_empty_matches_all :
    (∀ t : String, likeContains "" t = true) ∧
    (∀ db : Db, get_player_data db "" = player_agg_all db) := by
  constructor
  · exact likeContains_empty
  · intro db
    unfold get_player_data player_agg_all
    have hf : (taggedRows db).filter (fun p => likeContains "" p.2.2)
        = taggedRows db :=
      List.filter_eq_self.mpr (fun p _ => likeContains_empty p.2.2)
    rw [hf]

/-- Counterexample to claim C1 as stated: on two same-day records of
5242 bytes at two sites, the per-site rounded megabyte values of the
per-site timeline sum to 0.00 while the global timeline rounds the day
total to 0.01, because the conversion rounds each row before the
per-site values are summed. -/
theorem per_site_mb_vs_global_mb_cex :
    ¬ (perSiteMBsum cexDb 1 = globalMBsum cexDb 1) := by
  have h1 : (query_timeline cexDb).filter (fun row => row.1.1 = 1)
      = [((1, "siteA"), 5242), ((1, "siteB"), 5242)] := by decide
  have h2 : (get_global_timeline cexDb).filter (fun row => row.1 = 1)
      = [(1, 10484)] := by decide
  unfold perSiteMBsum globalMBsum
  rw [h1, h2]
  simp only [List.map_cons, List.map_nil, List.sum_cons, List.sum_nil,
    total_mb, show mbCenti 5242 = 0 from by decide,
    show mbCenti 10484 = 1 from by decide]
  norm_num

/-- Claim C1 as amended: when every application-matching record joins to
exactly one (computer, location) pair, the per-site timeline and the
global timeline agree at every date on the raw byte totals; the rounded
per-site total_mb values need not sum to the aggregate total_mb, since
rounding is applied per row before summation. -/
theorem timeline_bytes_consistent (db : Db)
    (H : ∀ r ∈ db.network_stats, appMatch r = true →
      (siteNamesFor db r).length = 1)
    (d : Nat) : perSiteBytes db d = globalBytes db d := by
  have H2 : ∀ r ∈ appRows db, (siteNamesFor db r).length = 1 := by
    intro r hr
    rcases List.mem_filter.mp hr with ⟨h1, h2⟩
    exact H r h1 h2
  have h1 : perSiteBytes db d
      = (((joinedRows db).filter (fun p => p.1.date_log = d)).map
          (fun p => bytesOf p.1)).sum := by
    unfold perSiteBytes query_timeline
    rw [insertionSort_filter_map_sum]
    exact sqlGroupBy_filter_sum
      (fun p : NetworkStat × String => (p.1.date_log, p.2))
      (fun p => bytesOf p.1) (joinedRows db) (fun k => decide (k.1 = d))
  have h2 : globalBytes db d
      = (((appRows db).filter (fun r => r.date_log = d)).map bytesOf).sum := by
    unfold globalBytes get_global_timeline
    rw [insertionSort_filter_map_sum]
    exact sqlGroupBy_filter_sum (fun r : NetworkStat => r.date_log) bytesOf
      (appRows db) (fun k => decide (k = d))
  rw [h1, h2]
  exact joined_filter_sum db d H2

/-- Witness for the amended C1 on the scenario data at date 1. -/
theorem timeline_bytes_consistent_witness :
    (∀ r ∈ scenarioDb.network_stats, appMatch r = true →
      (siteNamesFor scenarioDb r).length = 1) ∧
    perSiteBytes scenarioDb 1 = globalBytes scenarioDb 1 :=
  ⟨by decide, timeline_bytes_consistent scenarioDb (by decide) 1⟩

/-- Claim C4: the memoized global aggregation with its 300-second
time-to-live issues exactly one underlying query round for two
invocations within one TTL window: after the first call the round
count is one, the second call leaves it at one, and the second call
returns the stored result of the first. -/
theorem cache_hit_single_query (db : Db) (t1 t2 : Nat)
    (h1 : t1 ≤ t2) (h2 : t2 < t1 + 300) :
    (get_global_data_cached db t1 emptyCache).2.queryRounds = 1 ∧
    (get_global_data_cached db t2
        (get_global_data_cached db t1 emptyCache).2).2.queryRounds = 1 ∧
    (get_global_data_cached db t2
        (get_global_data_cached db t1 emptyCache).2).1
      = (get_global_data_cached db t1 emptyCache).1 := by
  have hfirst : get_global_data_cached db t1 emptyCache
      = (get_global_data (some db) false false,
          ⟨some (t1, get_global_data (some db) false false), 1⟩) := rfl
  refine ⟨by rw [hfirst], ?_, ?_⟩ <;>
    simp [hfirst, get_global_data_cached, getOrCompute, emptyCache, h2]

/-- Witness for C4: two renders at times 0 and 100 over the empty
tables. -/
theorem cache_hit_single_query_witness :
    (0 : Nat) ≤ 100 ∧ (100 : Nat) < 0 + 300 ∧
    ((get_global_data_cached emptyDb 0 emptyCache).2.queryRounds = 1 ∧
      (get_global_data_cached emptyDb 100
          (get_global_data_cached emptyDb 0 emptyCache).2).2.queryRounds = 1 ∧
      (get_global_data_cached emptyDb 100
          (get_global_data_cached emptyDb 0 emptyCache).2).1
        = (get_global_data_cached emptyDb 0 emptyCache).1) :=
  ⟨by norm_num, by norm_num,
    cache_hit_single_query emptyDb 0 100 (by norm_num) (by norm_num)⟩

/-- Claim C5: get_player_data carries no cache decorator, so every
invocation with an open connection issues one fresh query, whatever the
cache state already holds; two consecutive calls with the same tag
issue two query rounds, and the returned frame is always the freshly
computed aggregation. -/
theorem bytag_never_cached (db : Db) (tag : String)
    (s : CacheState GlobalTables) :
    (get_player_data_tracked db tag s).2.queryRounds = s.queryRounds + 1 ∧
    (get_player_data_tracked db tag
        (get_player_data_tracked db tag s).2).2.queryRounds
      = s.queryRounds + 2 ∧
    (get_player_data_tracked db tag s).1 = get_player_data db tag :=
  ⟨rfl, rfl, rfl⟩

/-- Claim C6 (the code-level behavior the claim contradicts): at the
aggregation interface of the scripts, a failed query and a valid query
with an empty result return the very same empty value, for both the
dash.py ranking and the dashboard.py pair, so no result tag separates
NoDataFound from QueryError. -/
theorem query_failure_indistinguishable_from_no_data :
    get_global_stats_run (some emptyDb) true
        = get_global_stats_run (some emptyDb) false ∧
    get_global_data (some emptyDb) true false
        = get_global_data (some emptyDb) false false ∧
    get_global_stats_run (some emptyDb) true = [] := by
  refine ⟨by decide, by decide, rfl⟩

/-- Claim C9: the top entry of a ranked sequence is its first row, the
display takes the explicit no-data branch whenever the ranking is
empty, and the first-row access never produces an indexer error: it is
only reached under the guard that both frames are non-empty. -/
theorem top_entry_guarded :
    (∀ (x : String × Nat) (xs : List (String × Nat)),
      iloc0 (x :: xs) = Except.ok x) ∧
    (∀ (t : List ((Nat × String) × Nat)) (rk : List (String × Nat)),
      rk = [] → renderMain t rk = Except.ok none) ∧
    (∀ (t : List ((Nat × String) × Nat)) (rk : List (String × Nat))
      (e : String), renderMain t rk ≠ Except.error e) := by
  refine ⟨fun x xs => rfl, ?_, ?_⟩
  · intro t rk h
    subst h
    simp [renderMain]
  · intro t rk e
    cases rk with
    | nil => simp [renderMain]
    | cons x xs =>
      cases t with
      | nil => simp [renderMain]
      | cons y ys => simp [renderMain, iloc0]

/-- Witness for C9 on concrete frames. -/
theorem top_entry_guarded_witness :
    iloc0 [("siteA", 7)] = Except.ok ("siteA", 7) ∧
    renderMain [((1, "siteA"), 7)] [] = Except.ok none ∧
    renderMain [] [] ≠ Except.error "single positional indexer is out-of-bounds" :=
  ⟨top_entry_guarded.1 ("siteA", 7) [],
    top_entry_guarded.2.1 [((1, "siteA"), 7)] [] rfl,
    top_entry_guarded.2.2 [] [] _⟩

/-- Claim C10: get_global_data returns its two tables atomically: a
missing connection or a failure of either query yields the pair of two
empty tables, and on every input the first table is empty exactly when
the second is, so a caller never observes exactly one populated table. -/
theorem global_data_pair_atomic :
    (∀ (db : Db) (ft fr : Bool), (ft || fr) = true →
      get_global_data (some db) ft fr = ([], [])) ∧
    (∀ ft fr : Bool, get_global_data none ft fr = ([], [])) ∧
    (∀ (conn : Option Db) (ft fr : Bool),
      (get_global_data conn ft fr).1 = []
        ↔ (get_global_data conn ft fr).2 = []) := by
  refine ⟨?_, ?_, ?_⟩
  · intro db ft fr h
    simp [get_global_data, h]
  · intro ft fr
    rfl
  · intro conn ft fr
    cases conn with
    | none => simp [get_global_data]
    | some db =>
      by_cases h : (ft || fr) = true
      · simp [get_global_data, h]
      · simp only [get_global_data, h, if_false, Bool.false_eq_true]
        unfold query_timeline query_ranking
        rw [insertionSort_eq_nil, insertionSort_eq_nil,
          sqlGroupBy_eq_nil, sqlGroupBy_eq_nil]

/-- Witness for C10: a failing timeline query over the empty tables. -/
theorem global_data_pair_atomic_witness :
    ((true || false) = true ∧
      get_global_data (some emptyDb) true false = ([], [])) ∧
    ((get_global_data (some emptyDb) false false).1 = []
      ↔ (get_global_data (some emptyDb) false false).2 = []) :=
  ⟨⟨rfl, global_data_pair_atomic.1 emptyDb true false rfl⟩,
    global_data_pair_atomic.2.2 (some emptyDb) false false⟩
